import Mathlib

/-!
Verification of the file-based cluster repository
(`ClusterRepositoryFileBased` in `internal/sql/repository/GlobalCMCSRepository.go`).

The Go code stores logical `Cluster` values as flat `ClusterEntity` rows in an
embedded store; the free-form `Config` map is serialized to a JSON text blob by
`encoding/json` (`json.Marshal` / `json.Unmarshal`).  Here the store is a list
of entity rows, a Go `map[string]string` is represented by its key-sorted
association list (the canonical form in which Go's `json.Marshal` also emits
the keys), and the JSON codec for string-keyed/string-valued maps is embedded
directly: `encodeConfig` emits `{"k":"v",...}` with the structural characters
(quote, backslash) and the common control characters escaped, `decodeConfig`
parses that grammar and rejects anything else.  (Go's encoder additionally
escapes HTML and the remaining control characters via `\uXXXX`, and its decoder
tolerates surrounding whitespace; neither affects any property proved below.)
-/

namespace ClusterRepo

/-- Audit columns of `sql.AuditLog` (created/updated on/by).  `time.Time` is
modelled as a `Nat` timestamp and the `int32` actor ids as `Int`; `0` is the Go
zero value in each field. -/
structure AuditLog where
  CreatedOn : Nat
  CreatedBy : Int
  UpdatedOn : Nat
  UpdatedBy : Int
deriving DecidableEq, Repr

/-- The on-disk record (`ClusterEntity`): `Config` is the encoded text blob and
`Active` is nullable (`*bool` in Go, `Option Bool` here). -/
structure ClusterEntity where
  ID : Int
  ClusterName : String
  ServerUrl : String
  Active : Option Bool
  Config : String
  K8sVersion : String
  ErrorInConnecting : String
  audit : AuditLog
deriving DecidableEq, Repr

/-- The logical `Cluster` model callers operate on.  `Config` is the canonical
(key-sorted, duplicate-free) association list standing for the Go map. -/
structure Cluster where
  Id : Int
  ClusterName : String
  ServerUrl : String
  Config : List (String × String)
  K8sVersion : String
  ErrorInConnecting : String
  Active : Bool
  audit : AuditLog
deriving DecidableEq, Repr

/-- The embedded store: the rows of the cluster table, in insertion order. -/
structure Store where
  rows : List ClusterEntity
deriving DecidableEq, Repr

/-! ### The Encoding Adapter: JSON for string-keyed/string-valued maps -/

def lbrace : Char := Char.ofNat 123
def rbrace : Char := Char.ofNat 125
def dquote : Char := Char.ofNat 34
def bslash : Char := Char.ofNat 92
def nlChar : Char := Char.ofNat 10
def crChar : Char := Char.ofNat 13
def tabChar : Char := Char.ofNat 9

/-- One character of string content, JSON-escaped. -/
def escChar (c : Char) : List Char :=
  if c = dquote then [bslash, dquote]
  else if c = bslash then [bslash, bslash]
  else if c = nlChar then [bslash, 'n']
  else if c = crChar then [bslash, 'r']
  else if c = tabChar then [bslash, 't']
  else [c]

/-- JSON string-content escaping of a character list. -/
def escape (cs : List Char) : List Char := cs.flatMap escChar

/-- A JSON string literal: `"..."` with the content escaped. -/
def quoteStr (s : String) : List Char := dquote :: (escape s.data ++ [dquote])

/-- One object member, `"key":"value"`. -/
def encPair (kv : String × String) : List Char := quoteStr kv.1 ++ ':' :: quoteStr kv.2

/-- Comma-separated object members (no trailing separator). -/
def encMembers : List (String × String) → List Char
  | [] => []
  | [kv] => encPair kv
  | kv :: rest => encPair kv ++ ',' :: encMembers rest

/-- Model of `json.Marshal` on a `map[string]string`: the members, in the map's
canonical key order, wrapped in braces.  Never fails. -/
def encodeConfig (m : List (String × String)) : String :=
  String.mk (lbrace :: (encMembers m ++ [rbrace]))

/-- Undo a single-character escape (`\\n`, `\\t`, ...). -/
def unescChar (c : Char) : Option Char :=
  if c = dquote then some dquote
  else if c = bslash then some bslash
  else if c = 'n' then some nlChar
  else if c = 'r' then some crChar
  else if c = 't' then some tabChar
  else none

/-- Parse JSON string content up to the closing quote; returns the decoded
characters and the rest of the input. -/
def parseStrContent : List Char → Option (List Char × List Char)
  | [] => none
  | c :: rest =>
    if c = dquote then some ([], rest)
    else if c = bslash then
      match rest with
      | [] => none
      | e :: rest2 =>
        match unescChar e with
        | none => none
        | some c2 => (parseStrContent rest2).map (fun p => (c2 :: p.1, p.2))
    else (parseStrContent rest).map (fun p => (c :: p.1, p.2))

/-- Parse one `"key":"value"` member. -/
def parsePair (cs : List Char) : Option ((String × String) × List Char) :=
  match cs with
  | [] => none
  | c :: rest =>
    if c = dquote then
      match parseStrContent rest with
      | none => none
      | some (k, rest1) =>
        match rest1 with
        | c1 :: c2 :: rest2 =>
          if c1 = ':' ∧ c2 = dquote then
            match parseStrContent rest2 with
            | none => none
            | some (v, rest3) => some ((String.mk k, String.mk v), rest3)
          else none
        | _ => none
    else none

/-- Parse a nonempty member list followed by the closing brace (fuel-recursive;
the fuel is at least the input length, so it never runs out on real input). -/
def parseMembers : Nat → List Char → Option (List (String × String) × List Char)
  | 0, _ => none
  | fuel + 1, cs =>
    match parsePair cs with
    | none => none
    | some (kv, rest) =>
      match rest with
      | [] => none
      | c :: rest2 =>
        if c = ',' then
          match parseMembers fuel rest2 with
          | none => none
          | some (m, rest3) => some (kv :: m, rest3)
        else if c = rbrace then some ([kv], rest2)
        else none

/-- Parse a whole JSON object of string fields from a character list; the
input must be consumed exactly. -/
def parseTopL : List Char → Option (List (String × String))
  | [] => none
  | c :: rest =>
    if c = lbrace then
      match rest with
      | [] => none
      | c2 :: rest2 =>
        if c2 = rbrace ∧ rest2 = [] then some []
        else
          match parseMembers rest.length rest with
          | some (m, []) => some m
          | _ => none
    else none

/-- Parse a whole JSON object of string fields. -/
def parseTop (s : String) : Option (List (String × String)) :=
  parseTopL s.data

/-- Lexicographic order on character lists by code point — the order in which
Go's `json.Marshal` emits a string map's keys (bytewise UTF-8 order, which
agrees with code-point order). -/
def listLt : List Char → List Char → Bool
  | [], [] => false
  | [], _ :: _ => true
  | _ :: _, [] => false
  | a :: as, b :: bs =>
    if a.toNat < b.toNat then true
    else if b.toNat < a.toNat then false
    else listLt as bs

/-- Key order on strings. -/
def strLt (a b : String) : Bool := listLt a.data b.data

/-- Insert a key/value pair into a canonical association list, keeping it
key-sorted; an existing binding of the same key is replaced (Go map
assignment). -/
def insertKV (l : List (String × String)) (k : String) (v : String) :
    List (String × String) :=
  match l with
  | [] => [(k, v)]
  | (k0, v0) :: rest =>
    if strLt k k0 then (k, v) :: (k0, v0) :: rest
    else if k = k0 then (k, v) :: rest
    else (k0, v0) :: insertKV rest k v

/-- Build a Go map (canonical association list) from parsed members; a
duplicated key keeps the last value, as `json.Unmarshal` does. -/
def mapOfList (l : List (String × String)) : List (String × String) :=
  l.foldl (fun acc kv => insertKV acc kv.1 kv.2) []

/-- Model of `json.Unmarshal` of the stored config text into a
`map[string]string`:
`null` leaves the freshly made map empty; otherwise the text must be an object
of string fields; anything else is a decode error (`none`). -/
def decodeConfig (s : String) : Option (List (String × String)) :=
  if s = "null" then some []
  else (parseTop s).map mapOfList

/-- The canonical-form invariant of a Go map's association list: keys strictly
sorted (hence duplicate-free). -/
def Canon (l : List (String × String)) : Prop :=
  l.Pairwise (fun a b => strLt a.1 b.1 = true)

instance : DecidablePred Canon := fun l =>
  List.instDecidablePairwise l

/-! ### Entity ↔ Model translation (`convertToEntity` / `convertToModel`) -/

/-- Go `convertToEntity`: flatten the model to a row, serializing the config map.
`json.Marshal` of a `map[string]string` cannot fail, so the Go error branch is
dead and the translation is total. -/
def convertToEntity (model : Cluster) : ClusterEntity :=
  { ID := model.Id
    ClusterName := model.ClusterName
    ServerUrl := model.ServerUrl
    Config := encodeConfig model.Config
    Active := some model.Active
    K8sVersion := model.K8sVersion
    ErrorInConnecting := model.ErrorInConnecting
    audit := { CreatedOn := model.audit.CreatedOn, CreatedBy := model.audit.CreatedBy,
               UpdatedOn := model.audit.UpdatedOn, UpdatedBy := model.audit.UpdatedBy } }

/-- Go `convertToModel`: decode the row back into a logical cluster.  A nonempty
config blob that fails to decode is a `DataCorruption` error; a `nil` `Active`
flag is normalized to `false`. -/
def convertToModel (entity : ClusterEntity) : Except String Cluster :=
  let clusterConfig : Option (List (String × String)) :=
    if 0 < entity.Config.length then decodeConfig entity.Config else some []
  match clusterConfig with
  | none => .error "failed to process cluster data"
  | some cfg =>
    let isActive : Bool :=
      match entity.Active with
      | none => false
      | some b => b
    .ok { Id := entity.ID
          ClusterName := entity.ClusterName
          ServerUrl := entity.ServerUrl
          Config := cfg
          K8sVersion := entity.K8sVersion
          ErrorInConnecting := entity.ErrorInConnecting
          audit := entity.audit
          Active := isActive }

/-- The zero row `gorm` leaves behind when `Find` into a struct matches
nothing. -/
def emptyEntity : ClusterEntity :=
  { ID := 0, ClusterName := "", ServerUrl := "", Active := none, Config := "",
    K8sVersion := "", ErrorInConnecting := "", audit := ⟨0, 0, 0, 0⟩ }

/-- The zero logical cluster, the not-found result of point lookups. -/
def emptyCluster : Cluster :=
  { Id := 0, ClusterName := "", ServerUrl := "", Config := [], K8sVersion := "",
    ErrorInConnecting := "", Active := false, audit := ⟨0, 0, 0, 0⟩ }

/-! ### The repository operations -/

/-- A row matches the `Active = true` filter exactly when its nullable flag is
present and true. -/
def activeRow (e : ClusterEntity) : Bool := e.Active == some true

/-- The largest id present in the table; the embedded engine assigns
`maxId + 1` to an inserted row without an id. -/
def maxId (rows : List ClusterEntity) : Int :=
  rows.foldl (fun m e => max m e.ID) 0

/-- Go `Save`: encode, insert (the store generates the id when the model's is
unset), then write the row's id back onto the caller's model. -/
def save (model : Cluster) (s : Store) : Cluster × Store :=
  let clusterEntity := convertToEntity model
  let newId : Int := if clusterEntity.ID = 0 then maxId s.rows + 1 else clusterEntity.ID
  ({ model with Id := newId },
   ⟨s.rows ++ [{ clusterEntity with ID := newId }]⟩)

/-- One field assignment of gorm's struct-valued `Updates`: a zero-valued
string is skipped, keeping the stored value. -/
def updStr (newVal oldVal : String) : String := if newVal = "" then oldVal else newVal

/-- gorm's `Model(entity).Updates(entity)` SET clause: only non-zero fields of
the given struct are assigned.  The primary key is the WHERE condition, not an
assignment; the `Active` pointer is non-`nil` whenever the entity came from
`convertToEntity`, so it is always assigned — including `false`. -/
def updateEntityFields (newE oldE : ClusterEntity) : ClusterEntity :=
  { ID := oldE.ID
    ClusterName := updStr newE.ClusterName oldE.ClusterName
    ServerUrl := updStr newE.ServerUrl oldE.ServerUrl
    Active := match newE.Active with
      | none => oldE.Active
      | some b => some b
    Config := updStr newE.Config oldE.Config
    K8sVersion := updStr newE.K8sVersion oldE.K8sVersion
    ErrorInConnecting := updStr newE.ErrorInConnecting oldE.ErrorInConnecting
    audit := { CreatedOn := if newE.audit.CreatedOn = 0 then oldE.audit.CreatedOn
                            else newE.audit.CreatedOn
               CreatedBy := if newE.audit.CreatedBy = 0 then oldE.audit.CreatedBy
                            else newE.audit.CreatedBy
               UpdatedOn := if newE.audit.UpdatedOn = 0 then oldE.audit.UpdatedOn
                            else newE.audit.UpdatedOn
               UpdatedBy := if newE.audit.UpdatedBy = 0 then oldE.audit.UpdatedBy
                            else newE.audit.UpdatedBy } }

/-- The row-level effect of `Update` on a matching row, spelled field by
field: `Active` (a non-`nil` pointer, even when `false`) and the encoded
config text (never empty) are always assigned, while a string or audit field
whose incoming value is the Go zero value keeps the stored value. -/
def gormStructUpdate (model : Cluster) (oldE : ClusterEntity) : ClusterEntity :=
  { ID := oldE.ID
    ClusterName := if model.ClusterName = "" then oldE.ClusterName else model.ClusterName
    ServerUrl := if model.ServerUrl = "" then oldE.ServerUrl else model.ServerUrl
    Active := some model.Active
    Config := encodeConfig model.Config
    K8sVersion := if model.K8sVersion = "" then oldE.K8sVersion else model.K8sVersion
    ErrorInConnecting := if model.ErrorInConnecting = "" then oldE.ErrorInConnecting
                         else model.ErrorInConnecting
    audit := { CreatedOn := if model.audit.CreatedOn = 0 then oldE.audit.CreatedOn
                            else model.audit.CreatedOn
               CreatedBy := if model.audit.CreatedBy = 0 then oldE.audit.CreatedBy
                            else model.audit.CreatedBy
               UpdatedOn := if model.audit.UpdatedOn = 0 then oldE.audit.UpdatedOn
                            else model.audit.UpdatedOn
               UpdatedBy := if model.audit.UpdatedBy = 0 then oldE.audit.UpdatedBy
                            else model.audit.UpdatedBy } }

/-- Go `Update`: encode the model and run gorm's struct `Updates` against the row
whose primary key matches; with a zero primary key gorm refuses the global
update and the repository wraps the failure. -/
def update (model : Cluster) (s : Store) : Except String Store :=
  let entity := convertToEntity model
  if entity.ID = 0 then .error "failed to update cluster"
  else .ok ⟨s.rows.map (fun oldE =>
    if oldE.ID = entity.ID then updateEntityFields entity oldE else oldE)⟩

/-- Go `Delete`: hard delete by primary key; a zero primary key is refused. -/
def delete (model : Cluster) (s : Store) : Except String Store :=
  let entity := convertToEntity model
  if entity.ID = 0 then .error "failed to delete cluster"
  else .ok ⟨s.rows.filter (fun oldE => !(oldE.ID == entity.ID))⟩

/-- Go `MarkClusterDeleted`: flip `Active` to false and route through `Update`
(soft delete). -/
def markClusterDeleted (model : Cluster) (s : Store) : Except String Store :=
  update { model with Active := false } s

/-- Go `UpdateClusterConnectionStatus`: set only the diagnostic column of the row
with the given id. -/
def updateClusterConnectionStatus (s : Store) (clusterId : Int)
    (errorInConnecting : String) : Store :=
  ⟨s.rows.map (fun e =>
    if e.ID = clusterId then { e with ErrorInConnecting := errorInConnecting } else e)⟩

/-- Go `FindOneActive`: the first row matching the name among active rows (gorm's
`Find` into a struct leaves the zero row and no error when nothing matches);
a decode failure is wrapped as "failed to fetch cluster". -/
def findOneActive (s : Store) (clusterName : String) : Except String Cluster :=
  let clusterEntity :=
    (s.rows.filter (fun e => e.ClusterName == clusterName && activeRow e)).headD emptyEntity
  match convertToModel clusterEntity with
  | .ok clusterBean => .ok clusterBean
  | .error _ => .error "failed to fetch cluster"

/-- Go `FindOne` delegates to `FindOneActive`. -/
def findOne (s : Store) (clusterName : String) : Except String Cluster :=
  findOneActive s clusterName

/-- Go `FindAllActive`: every active row, decoded; a row that fails to decode is
skipped (logged in Go), never failing the batch. -/
def findAllActive (s : Store) : List Cluster :=
  (s.rows.filter activeRow).filterMap (fun e => (convertToModel e).toOption)

/-- Go `FindAll` delegates to `FindAllActive`. -/
def findAll (s : Store) : List Cluster :=
  findAllActive s

/-- Go `FindById`: like `FindOneActive`, keyed by id and filtered to active. -/
def findById (s : Store) (id : Int) : Except String Cluster :=
  let clusterEntity :=
    (s.rows.filter (fun e => e.ID == id && activeRow e)).headD emptyEntity
  match convertToModel clusterEntity with
  | .ok clusterBean => .ok clusterBean
  | .error _ => .error "failed to fetch cluster"

/-- Go `FindByIds`: batch variant of `FindById`, with the same skip-on-decode-error
policy as `FindAllActive`. -/
def findByIds (s : Store) (ids : List Int) : List Cluster :=
  (s.rows.filter (fun e => ids.contains e.ID && activeRow e)).filterMap
    (fun e => (convertToModel e).toOption)

/-! ### Concrete sample data (used by the witnesses) -/

def auditSample : AuditLog := ⟨1, 2, 3, 4⟩

/-- A fresh cluster model (id unset) with a two-entry config. -/
def clusterSample : Cluster :=
  { Id := 0
    ClusterName := "prod-cluster"
    ServerUrl := "https://k8s.example"
    Config := [("token", "abc"), ("zone", "eu")]
    K8sVersion := "v1.24"
    ErrorInConnecting := ""
    Active := true
    audit := auditSample }

/-- A stored, active, decodable row with id 1. -/
def rowGood : ClusterEntity :=
  { ID := 1
    ClusterName := "prod-cluster"
    ServerUrl := "https://k8s.example"
    Active := some true
    Config := encodeConfig [("token", "abc")]
    K8sVersion := "v1.24"
    ErrorInConnecting := ""
    audit := auditSample }

/-- The logical cluster stored in `rowGood`. -/
def modelGood : Cluster :=
  { Id := 1
    ClusterName := "prod-cluster"
    ServerUrl := "https://k8s.example"
    Config := [("token", "abc")]
    K8sVersion := "v1.24"
    ErrorInConnecting := ""
    Active := true
    audit := auditSample }

/-- A stored, active row with id 2 whose config text is corrupted. -/
def rowBad : ClusterEntity :=
  { ID := 2
    ClusterName := "corrupt-cluster"
    ServerUrl := "https://k8s.example"
    Active := some true
    Config := "corrupted"
    K8sVersion := ""
    ErrorInConnecting := ""
    audit := auditSample }

/-- A soft-deleted row with id 3. -/
def rowInactive : ClusterEntity :=
  { ID := 3
    ClusterName := "old-cluster"
    ServerUrl := "https://old.example"
    Active := some false
    Config := encodeConfig []
    K8sVersion := ""
    ErrorInConnecting := ""
    audit := auditSample }

/-- A row whose nullable `Active` flag is absent. -/
def rowNoFlag : ClusterEntity :=
  { ID := 4
    ClusterName := "legacy-cluster"
    ServerUrl := "https://legacy.example"
    Active := none
    Config := ""
    K8sVersion := ""
    ErrorInConnecting := ""
    audit := auditSample }

/-- The logical cluster read back from `rowNoFlag`. -/
def modelNoFlag : Cluster :=
  { Id := 4
    ClusterName := "legacy-cluster"
    ServerUrl := "https://legacy.example"
    Config := []
    K8sVersion := ""
    ErrorInConnecting := ""
    Active := false
    audit := auditSample }

/-- An update payload for row 1 whose `K8sVersion` and `ErrorInConnecting` are
zero-valued. -/
def updateInput : Cluster :=
  { Id := 1
    ClusterName := "prod-cluster"
    ServerUrl := "https://k8s.example"
    Config := [("token", "abc")]
    K8sVersion := ""
    ErrorInConnecting := ""
    Active := true
    audit := ⟨0, 0, 0, 0⟩ }

/-- The model whose soft deletion the C2 witness exercises (row 1 as saved). -/
def clusterDel : Cluster :=
  { Id := 1
    ClusterName := "prod-cluster"
    ServerUrl := "https://k8s.example"
    Config := [("token", "abc")]
    K8sVersion := "v1.24"
    ErrorInConnecting := ""
    Active := true
    audit := ⟨0, 0, 0, 0⟩ }

/-- The store after soft-deleting row 1 out of `⟨[rowGood]⟩`. -/
def storeAfterDelete : Store := ⟨[{ rowGood with Active := some false }]⟩

/-! ### Round-trip facts about the Encoding Adapter -/

theorem data_mk (l : List Char) : (String.mk l).data = l := rfl

theorem mk_data (s : String) : String.mk s.data = s := rfl

theorem listLt_irrefl : ∀ l : List Char, listLt l l = false
  | [] => rfl
  | a :: as => by simp [listLt, listLt_irrefl as]

theorem listLt_asymm : ∀ a b : List Char, listLt a b = true → listLt b a = false := by
  intro a
  induction a with
  | nil =>
    intro b h
    cases b with
    | nil => simp [listLt] at h
    | cons c cs => simp [listLt]
  | cons x xs ih =>
    intro b h
    cases b with
    | nil => simp [listLt] at h
    | cons y ys =>
      simp only [listLt] at h ⊢
      by_cases h1 : x.toNat < y.toNat
      · have h2 : ¬ y.toNat < x.toNat := by omega
        simp [h1, h2]
      · by_cases h2 : y.toNat < x.toNat
        · simp [h1, h2] at h
        · simp only [h1, h2, if_false] at h ⊢
          exact ih ys h

theorem strLt_asymm {a b : String} (h : strLt a b = true) : strLt b a = false :=
  listLt_asymm a.data b.data h

theorem strLt_ne {a b : String} (h : strLt a b = true) : a ≠ b := by
  intro e
  subst e
  rw [strLt, listLt_irrefl] at h
  exact Bool.noConfusion h

/-- Parsing one escaped character prepends it to whatever the rest parses to. -/
theorem parseStrContent_escChar (c : Char) (t : List Char) :
    parseStrContent (escChar c ++ t) =
      (parseStrContent t).map (fun p => (c :: p.1, p.2)) := by
  by_cases h1 : c = dquote
  · subst h1
    simp +decide [escChar, parseStrContent, unescChar]
  by_cases h2 : c = bslash
  · subst h2
    simp +decide [escChar, parseStrContent, unescChar, h1]
  by_cases h3 : c = nlChar
  · subst h3
    simp +decide [escChar, parseStrContent, unescChar, h1, h2]
  by_cases h4 : c = crChar
  · subst h4
    simp +decide [escChar, parseStrContent, unescChar, h1, h2, h3]
  by_cases h5 : c = tabChar
  · subst h5
    simp +decide [escChar, parseStrContent, unescChar, h1, h2, h3, h4]
  simp only [escChar, h1, h2, h3, h4, h5, if_false, ite_false, List.cons_append,
    List.nil_append]
  rw [parseStrContent.eq_def]
  simp [h1, h2]

/-- Parsing an escaped run stops exactly at the closing quote and recovers the
original characters. -/
theorem parseStrContent_escape (cs : List Char) :
    ∀ rest, parseStrContent (escape cs ++ dquote :: rest) = some (cs, rest) := by
  induction cs with
  | nil =>
    intro rest
    simp only [escape, List.flatMap_nil, List.nil_append]
    rw [parseStrContent.eq_def]
    simp
  | cons c cs ih =>
    intro rest
    have hesc : escape (c :: cs) = escChar c ++ escape cs := by simp [escape]
    rw [hesc, List.append_assoc, parseStrContent_escChar, ih]
    rfl

/-- Parsing an encoded member recovers the key/value pair. -/
theorem parsePair_encPair (kv : String × String) (rest : List Char) :
    parsePair (encPair kv ++ rest) = some (kv, rest) := by
  obtain ⟨k, v⟩ := kv
  have h1 := parseStrContent_escape k.data (':' :: dquote :: (escape v.data ++ dquote :: rest))
  have h2 := parseStrContent_escape v.data rest
  simp only [encPair, quoteStr, List.cons_append, List.append_assoc, List.nil_append,
    List.singleton_append]
  simp [parsePair, h1, h2, mk_data]

theorem encMembers_cons (kv kv2 : String × String) (m : List (String × String)) :
    encMembers (kv :: kv2 :: m) = encPair kv ++ ',' :: encMembers (kv2 :: m) := rfl

/-- Parsing an encoded nonempty member list, given enough fuel, recovers the
members and consumes the closing brace. -/
theorem parseMembers_enc :
    ∀ (m : List (String × String)) (kv : String × String) (fuel : Nat)
      (rest : List Char), m.length < fuel →
      parseMembers fuel (encMembers (kv :: m) ++ rbrace :: rest) = some (kv :: m, rest) := by
  intro m
  induction m with
  | nil =>
    intro kv fuel rest hf
    obtain ⟨f, rfl⟩ : ∃ f, fuel = f + 1 := ⟨fuel - 1, by omega⟩
    simp +decide [encMembers, parseMembers, parsePair_encPair]
  | cons kv2 m ih =>
    intro kv fuel rest hf
    obtain ⟨f, rfl⟩ : ∃ f, fuel = f + 1 := ⟨fuel - 1, by omega⟩
    rw [encMembers_cons, List.append_assoc]
    have hm : m.length < f := by
      simp only [List.length_cons] at hf
      omega
    simp +decide [parseMembers, parsePair_encPair, ih kv2 f rest hm]

/-- Every member contributes at least one character. -/
theorem encMembers_len :
    ∀ (m : List (String × String)) (kv : String × String),
      m.length + 1 ≤ (encMembers (kv :: m)).length := by
  intro m
  induction m with
  | nil =>
    intro kv
    simp [encMembers, encPair, quoteStr]
  | cons kv2 m ih =>
    intro kv
    rw [encMembers_cons]
    have := ih kv2
    simp only [List.length_append, List.length_cons]
    omega

theorem encMembers_head (kv : String × String) (m : List (String × String)) :
    (encMembers (kv :: m)).head? = some dquote := by
  cases m <;> simp [encMembers, encPair, quoteStr]

/-- Parsing an encoded map recovers the members exactly. -/
theorem parseTop_enc (m : List (String × String)) :
    parseTop (encodeConfig m) = some m := by
  cases m with
  | nil => decide
  | cons kv m =>
    cases hE : encMembers (kv :: m) with
    | nil =>
      have := encMembers_len m kv
      rw [hE] at this
      simp at this
    | cons c2 t =>
      have hc2 : c2 = dquote := by
        have h := encMembers_head kv m
        rw [hE] at h
        simpa using h
      subst hc2
      have hlen : m.length < ((encMembers (kv :: m)).length + 1) := by
        have := encMembers_len m kv
        omega
      have hparse := parseMembers_enc m kv ((encMembers (kv :: m)).length + 1) [] hlen
      simp only [parseTop, encodeConfig, data_mk, parseTopL]
      rw [hE] at hparse ⊢
      simp only [List.cons_append, List.length_cons, List.length_append,
        List.length_cons] at hparse ⊢
      simp +decide [hparse]

theorem insertKV_big :
    ∀ (acc : List (String × String)) (k v : String),
      (∀ p ∈ acc, strLt p.1 k = true) → insertKV acc k v = acc ++ [(k, v)] := by
  intro acc
  induction acc with
  | nil => intro k v _; rfl
  | cons p rest ih =>
    intro k v h
    obtain ⟨k0, v0⟩ := p
    have hk0 : strLt k0 k = true := h (k0, v0) (List.mem_cons_self _ _)
    have hlt : strLt k k0 = false := strLt_asymm hk0
    have hne : k ≠ k0 := (strLt_ne hk0).symm
    simp only [insertKV, hlt, hne, if_false, Bool.false_eq_true, ite_false]
    rw [ih k v (fun p hp => h p (List.mem_cons_of_mem _ hp))]
    simp

/-- Rebuilding a Go map from an already-canonical association list is the
identity. -/
theorem mapOfList_canon {m : List (String × String)} (h : Canon m) :
    mapOfList m = m := by
  suffices haux : ∀ (l acc : List (String × String)),
      (acc ++ l).Pairwise (fun a b => strLt a.1 b.1 = true) →
      l.foldl (fun acc kv => insertKV acc kv.1 kv.2) acc = acc ++ l by
    simpa [mapOfList] using haux m [] (by simpa [Canon] using h)
  intro l
  induction l with
  | nil => intro acc _; simp
  | cons kv l ih =>
    intro acc hp
    obtain ⟨k, v⟩ := kv
    have hmem : ∀ p ∈ acc, strLt p.1 k = true := by
      intro p hpmem
      have := (List.pairwise_append.mp hp).2.2 p hpmem (k, v) (List.mem_cons_self _ _)
      exact this
    have hstep : insertKV acc k v = acc ++ [(k, v)] := insertKV_big acc k v hmem
    simp only [List.foldl_cons, hstep]
    have hre : (acc ++ [(k, v)]) ++ l = acc ++ (k, v) :: l := by
      rw [List.append_assoc]
      rfl
    rw [ih (acc ++ [(k, v)]) (by rw [hre]; exact hp), hre]

theorem encodeConfig_ne_null (m : List (String × String)) :
    encodeConfig m ≠ "null" := by
  intro hEq
  have hdata : (encodeConfig m).data = "null".data := by rw [hEq]
  simp only [encodeConfig, data_mk] at hdata
  have hh : ((lbrace : Char) :: (encMembers m ++ [rbrace])).head? = "null".data.head? := by
    rw [hdata]
  simp +decide at hh

/-- P1 / I1 at codec level: decoding an encoded canonical map recovers it. -/
theorem decode_encode {m : List (String × String)} (h : Canon m) :
    decodeConfig (encodeConfig m) = some m := by
  rw [decodeConfig, if_neg (encodeConfig_ne_null m), parseTop_enc]
  simp [mapOfList_canon h]

/-- The encoded config text is never the empty string. -/
theorem encodeConfig_length_pos (m : List (String × String)) :
    0 < (encodeConfig m).length := by
  have : (encodeConfig m).length = (lbrace :: (encMembers m ++ [rbrace])).length := rfl
  simp [this]

theorem encodeConfig_ne_empty (m : List (String × String)) : encodeConfig m ≠ "" := by
  intro hEq
  have := encodeConfig_length_pos m
  rw [hEq] at this
  simp at this

/-! ### Facts about the translation and the read paths -/

theorem convertToModel_empty : convertToModel emptyEntity = .ok emptyCluster := rfl

theorem activeRow_iff {e : ClusterEntity} : activeRow e = true ↔ e.Active = some true := by
  simp [activeRow]

/-- Every field except `Config` of a successfully decoded cluster comes
straight from the row, with the nullable flag normalized. -/
theorem convertToModel_ok_fields {e : ClusterEntity} {c : Cluster}
    (h : convertToModel e = .ok c) :
    c.Id = e.ID ∧ c.ClusterName = e.ClusterName ∧ c.ServerUrl = e.ServerUrl ∧
    c.K8sVersion = e.K8sVersion ∧ c.ErrorInConnecting = e.ErrorInConnecting ∧
    c.audit = e.audit ∧
    c.Active = (match e.Active with | none => false | some b => b) := by
  simp only [convertToModel] at h
  split at h
  · cases h
  · injection h with h2
    subst h2
    exact ⟨rfl, rfl, rfl, rfl, rfl, rfl, rfl⟩

/-- A cluster produced by `FindAllActive` decodes from some active stored
row. -/
theorem mem_findAllActive {s : Store} {c : Cluster} (h : c ∈ findAllActive s) :
    ∃ e ∈ s.rows, e.Active = some true ∧ convertToModel e = .ok c := by
  simp only [findAllActive, List.mem_filterMap, List.mem_filter] at h
  obtain ⟨e, ⟨hrows, hact⟩, hdec⟩ := h
  refine ⟨e, hrows, activeRow_iff.mp hact, ?_⟩
  cases hcm : convertToModel e with
  | error msg => rw [hcm] at hdec; simp [Except.toOption] at hdec
  | ok c2 =>
    rw [hcm] at hdec
    simp [Except.toOption] at hdec
    rw [hdec]

/-- A cluster produced by `FindByIds` decodes from some active stored row
whose id was requested. -/
theorem mem_findByIds {s : Store} {ids : List Int} {c : Cluster}
    (h : c ∈ findByIds s ids) :
    ∃ e ∈ s.rows, e.ID ∈ ids ∧ e.Active = some true ∧ convertToModel e = .ok c := by
  simp only [findByIds, List.mem_filterMap, List.mem_filter] at h
  obtain ⟨e, ⟨hrows, hpred⟩, hdec⟩ := h
  simp only [Bool.and_eq_true] at hpred
  obtain ⟨hin, hact⟩ := hpred
  refine ⟨e, hrows, by simpa using hin, activeRow_iff.mp hact, ?_⟩
  cases hcm : convertToModel e with
  | error msg => rw [hcm] at hdec; simp [Except.toOption] at hdec
  | ok c2 =>
    rw [hcm] at hdec
    simp [Except.toOption] at hdec
    rw [hdec]

/-- A successful `FindOneActive` is either the not-found zero cluster or the
decoding of an active row with the requested name. -/
theorem findOneActive_ok_cases {s : Store} {clusterName : String} {c : Cluster}
    (h : findOneActive s clusterName = .ok c) :
    c = emptyCluster ∨
      ∃ e ∈ s.rows, e.ClusterName = clusterName ∧ e.Active = some true ∧
        convertToModel e = .ok c := by
  simp only [findOneActive] at h
  cases hf : s.rows.filter (fun e => e.ClusterName == clusterName && activeRow e) with
  | nil =>
    rw [hf, List.headD_nil, convertToModel_empty] at h
    exact Or.inl (Except.ok.inj h).symm
  | cons e t =>
    rw [hf, List.headD_cons] at h
    right
    have hmem : e ∈ s.rows.filter (fun e => e.ClusterName == clusterName && activeRow e) := by
      rw [hf]; exact List.mem_cons_self _ _
    obtain ⟨hrows, hpred⟩ := List.mem_filter.mp hmem
    simp only [Bool.and_eq_true] at hpred
    obtain ⟨hname, hact⟩ := hpred
    refine ⟨e, hrows, by simpa using hname, activeRow_iff.mp hact, ?_⟩
    cases hcm : convertToModel e with
    | error msg => rw [hcm] at h; simp at h
    | ok c2 => rw [hcm] at h; exact h

/-- A successful `FindById` is either the not-found zero cluster or the
decoding of an active row with the requested id. -/
theorem findById_ok_cases {s : Store} {i : Int} {c : Cluster}
    (h : findById s i = .ok c) :
    c = emptyCluster ∨
      ∃ e ∈ s.rows, e.ID = i ∧ e.Active = some true ∧ convertToModel e = .ok c := by
  simp only [findById] at h
  cases hf : s.rows.filter (fun e => e.ID == i && activeRow e) with
  | nil =>
    rw [hf, List.headD_nil, convertToModel_empty] at h
    exact Or.inl (Except.ok.inj h).symm
  | cons e t =>
    rw [hf, List.headD_cons] at h
    right
    have hmem : e ∈ s.rows.filter (fun e => e.ID == i && activeRow e) := by
      rw [hf]; exact List.mem_cons_self _ _
    obtain ⟨hrows, hpred⟩ := List.mem_filter.mp hmem
    simp only [Bool.and_eq_true] at hpred
    obtain ⟨hid, hact⟩ := hpred
    refine ⟨e, hrows, by simpa using hid, activeRow_iff.mp hact, ?_⟩
    cases hcm : convertToModel e with
    | error msg => rw [hcm] at h; simp at h
    | ok c2 => rw [hcm] at h; exact h

/-- When no active row matches the id, `FindById` returns the zero cluster
without error. -/
theorem findById_not_found {s : Store} {i : Int}
    (h : ∀ e ∈ s.rows, ¬(e.ID = i ∧ e.Active = some true)) :
    findById s i = .ok emptyCluster := by
  have hf : s.rows.filter (fun e => e.ID == i && activeRow e) = [] := by
    rw [List.filter_eq_nil_iff]
    intro e he
    have := h e he
    simp only [Bool.and_eq_true, beq_iff_eq, activeRow_iff]
    tauto
  simp only [findById, hf, List.headD_nil, convertToModel_empty]

/-- When no active row matches the name, `FindOneActive` returns the zero
cluster without error. -/
theorem findOneActive_not_found {s : Store} {clusterName : String}
    (h : ∀ e ∈ s.rows, ¬(e.ClusterName = clusterName ∧ e.Active = some true)) :
    findOneActive s clusterName = .ok emptyCluster := by
  have hf : s.rows.filter (fun e => e.ClusterName == clusterName && activeRow e) = [] := by
    rw [List.filter_eq_nil_iff]
    intro e he
    have := h e he
    simp only [Bool.and_eq_true, beq_iff_eq, activeRow_iff]
    tauto
  simp only [findOneActive, hf, List.headD_nil, convertToModel_empty]

/-! ### The claims -/

/-- C1: for every config mapping (in canonical Go-map form, including the
empty one), decoding the entity produced by `convertToEntity` via
`convertToModel` recovers the cluster — in particular its `Config` — exactly:
the Encoding Adapter round-trip is lossless. -/
theorem config_roundtrip (model : Cluster) (h : Canon model.Config) :
    convertToModel (convertToEntity model) = .ok model := by
  simp only [convertToEntity, convertToModel]
  rw [if_pos (encodeConfig_length_pos model.Config), decode_encode h]

theorem config_roundtrip_witness :
    convertToModel (convertToEntity clusterSample) = .ok clusterSample :=
  config_roundtrip clusterSample (by decide)

/-- C8: whenever decoding stored config text fails, the repository surfaces
exactly the generic messages — "failed to process cluster data" from the
translation and "failed to fetch cluster" from the point lookups — and never
any storage-engine or JSON error text.  (Encoding a string map never fails,
so `convertToEntity` is total and the write paths have no encode-error
case.) -/
theorem decode_errors_generic :
    (∀ e : ClusterEntity, (convertToModel e).isOk = true ∨
        convertToModel e = .error "failed to process cluster data") ∧
    (∀ (s : Store) (clusterName : String), (findOneActive s clusterName).isOk = true ∨
        findOneActive s clusterName = .error "failed to fetch cluster") ∧
    (∀ (s : Store) (i : Int), (findById s i).isOk = true ∨
        findById s i = .error "failed to fetch cluster") := by
  refine ⟨?_, ?_, ?_⟩
  · intro e
    simp only [convertToModel]
    split
    · exact Or.inr rfl
    · exact Or.inl rfl
  · intro s clusterName
    simp only [findOneActive]
    cases convertToModel
        ((s.rows.filter (fun e => e.ClusterName == clusterName && activeRow e)).headD
          emptyEntity) with
    | ok c => exact Or.inl rfl
    | error msg => exact Or.inr rfl
  · intro s i
    simp only [findById]
    cases convertToModel
        ((s.rows.filter (fun e => e.ID == i && activeRow e)).headD emptyEntity) with
    | ok c => exact Or.inl rfl
    | error msg => exact Or.inr rfl

/-- C4: `Save` on a model with unset id appends a new row carrying the
store-generated id (`maxId + 1`) and writes that id back onto the returned
model, whose other fields are untouched; the returned model's id equals the id
of the newly inserted row. -/
theorem save_writes_back_id (model : Cluster) (s : Store) (h : model.Id = 0) :
    (save model s).2.rows
        = s.rows ++ [{ convertToEntity model with ID := maxId s.rows + 1 }] ∧
    (save model s).1 = { model with Id := maxId s.rows + 1 } ∧
    ((save model s).2.rows.getLast?.map ClusterEntity.ID)
        = some ((save model s).1.Id) := by
  have hID : (convertToEntity model).ID = 0 := h
  refine ⟨?_, ?_, ?_⟩
  · simp [save, hID]
  · simp [save, hID]
  · simp [save, hID, List.getLast?_concat]

theorem save_writes_back_id_witness :
    ((save clusterSample ⟨[rowGood]⟩).2.rows.getLast?.map ClusterEntity.ID)
        = some ((save clusterSample ⟨[rowGood]⟩).1.Id) :=
  (save_writes_back_id clusterSample ⟨[rowGood]⟩ (by decide)).2.2

/-- C6: the Entity→Model translation normalizes the nullable flag: an absent
flag maps to `Active = false` — never to `true` and never to an error (its
absence does not affect whether translation succeeds) — and a present flag
maps to the stored boolean. -/
theorem active_flag_normalization (e : ClusterEntity) :
    (∀ c : Cluster, convertToModel e = .ok c →
        c.Active = (match e.Active with | none => false | some b => b)) ∧
    (convertToModel e).isOk = (convertToModel { e with Active := none }).isOk := by
  constructor
  · intro c h
    exact (convertToModel_ok_fields h).2.2.2.2.2.2
  · simp only [convertToModel]
    cases (if 0 < e.Config.length then decodeConfig e.Config else some []) with
    | none => rfl
    | some cfg => rfl

theorem active_flag_normalization_witness :
    modelNoFlag.Active = (match rowNoFlag.Active with | none => false | some b => b) :=
  (active_flag_normalization rowNoFlag).1 modelNoFlag rfl

/-- C7: a lookup that matches no active stored row returns the zero cluster
and no error — a not-found indication, not a hard failure. -/
theorem lookup_not_found_empty (s : Store) (clusterName : String) (i : Int)
    (hname : ∀ e ∈ s.rows, ¬(e.ClusterName = clusterName ∧ e.Active = some true))
    (hid : ∀ e ∈ s.rows, ¬(e.ID = i ∧ e.Active = some true)) :
    findOneActive s clusterName = .ok emptyCluster ∧
    findOne s clusterName = .ok emptyCluster ∧
    findById s i = .ok emptyCluster :=
  ⟨findOneActive_not_found hname, findOneActive_not_found hname, findById_not_found hid⟩

theorem lookup_not_found_empty_witness :
    findOneActive ⟨[rowInactive]⟩ "prod-cluster" = .ok emptyCluster ∧
    findOne ⟨[rowInactive]⟩ "prod-cluster" = .ok emptyCluster ∧
    findById ⟨[rowInactive]⟩ 3 = .ok emptyCluster :=
  lookup_not_found_empty ⟨[rowInactive]⟩ "prod-cluster" 3 (by decide) (by decide)

/-- C3 counterexample: an `Update` whose model carries a zero-valued field
succeeds yet leaves that field's stored value in place — the row keeps
`K8sVersion = "v1.24"` although the updated model's `K8sVersion` is the empty
string — so `Update` is not a full-record overwrite. -/
theorem update_zero_field_counterexample :
    updateInput.K8sVersion = "" ∧
    (update updateInput ⟨[rowGood]⟩).map (fun s => s.rows.map ClusterEntity.K8sVersion)
        = .ok ["v1.24"] :=
  ⟨rfl, rfl⟩

/-- C3 amended: a successful `Update` rewrites each matching row with gorm's
struct-`Updates` semantics: all non-zero fields of the encoded entity
overwrite the row — `Active` always (it is a non-`nil` pointer, so `false` is
persisted) and the config text always (it is never empty) — while fields whose
incoming value is the Go zero value (empty strings, zero audit numbers) keep
their stored values; rows with a different id are untouched. -/
theorem update_overwrites_nonzero_fields (model : Cluster) (s s' : Store)
    (h : update model s = .ok s') :
    s'.rows = s.rows.map (fun oldE =>
      if oldE.ID = model.Id then gormStructUpdate model oldE else oldE) := by
  simp only [update] at h
  by_cases hz : (convertToEntity model).ID = 0
  · rw [if_pos hz] at h
    cases h
  · rw [if_neg hz] at h
    injection h with h2
    rw [← h2]
    apply List.map_congr_left
    intro oldE _
    by_cases hc : oldE.ID = model.Id
    · have hc2 : oldE.ID = (convertToEntity model).ID := hc
      rw [if_pos hc2, if_pos hc]
      simp only [gormStructUpdate, updateEntityFields, updStr, convertToEntity]
      rw [if_neg (encodeConfig_ne_empty model.Config)]
    · have hc2 : ¬(oldE.ID = (convertToEntity model).ID) := hc
      rw [if_neg hc2, if_neg hc]

theorem update_overwrites_nonzero_fields_witness :
    Store.rows ⟨[rowGood]⟩ = [rowGood].map (fun oldE =>
      if oldE.ID = updateInput.Id then gormStructUpdate updateInput oldE else oldE) :=
  update_overwrites_nonzero_fields updateInput ⟨[rowGood]⟩ ⟨[rowGood]⟩ rfl

/-- Decoded and skipped rows partition a batch. -/
theorem length_filterMap_toOption (l : List ClusterEntity) :
    (l.filterMap (fun e => (convertToModel e).toOption)).length
      + (l.filter (fun e => ((convertToModel e).toOption).isNone)).length = l.length := by
  induction l with
  | nil => rfl
  | cons e t ih =>
    cases ho : (convertToModel e).toOption with
    | none =>
      simp only [List.filterMap_cons, List.filter_cons, ho, Option.isNone_none,
        List.length_cons, if_pos]
      omega
    | some c =>
      simp only [List.filterMap_cons, List.filter_cons, ho, Option.isNone_some,
        List.length_cons, Bool.false_eq_true, if_false, ite_false]
      omega

/-- C5: a single undecodable row never fails a batch read: when exactly one of
the rows a batch read scans is undecodable, `FindAllActive` (hence `FindAll`)
and `FindByIds` return exactly the other rows, decoded — the bad row is
skipped, and the batch functions are list-valued, so no error is returned. -/
theorem batch_skips_bad_rows (s : Store) (ids : List Int) (nAll nIds : Nat)
    (hAll : (s.rows.filter activeRow).length = nAll)
    (hAllBad : ((s.rows.filter activeRow).filter
        (fun e => ((convertToModel e).toOption).isNone)).length = 1)
    (hIds : (s.rows.filter (fun e => ids.contains e.ID && activeRow e)).length = nIds)
    (hIdsBad : ((s.rows.filter (fun e => ids.contains e.ID && activeRow e)).filter
        (fun e => ((convertToModel e).toOption).isNone)).length = 1) :
    (findAllActive s).length = nAll - 1 ∧ (findByIds s ids).length = nIds - 1 := by
  constructor
  · have := length_filterMap_toOption (s.rows.filter activeRow)
    simp only [findAllActive]
    omega
  · have := length_filterMap_toOption
      (s.rows.filter (fun e => ids.contains e.ID && activeRow e))
    simp only [findByIds]
    omega

theorem batch_skips_bad_rows_witness :
    (findAllActive ⟨[rowGood, rowBad]⟩).length = 2 - 1 ∧
    (findByIds ⟨[rowGood, rowBad]⟩ [1, 2]).length = 2 - 1 :=
  batch_skips_bad_rows ⟨[rowGood, rowBad]⟩ [1, 2] 2 2
    (by decide) (by decide) (by decide) (by decide)

/-- Changing only the diagnostic column of a row changes only the diagnostic
field of its decoded cluster. -/
theorem convertToModel_set_err (e : ClusterEntity) (msg : String) {c : Cluster}
    (h : convertToModel e = .ok c) :
    convertToModel { e with ErrorInConnecting := msg }
      = .ok { c with ErrorInConnecting := msg } := by
  simp only [convertToModel] at h ⊢
  cases hcfg : (if 0 < e.Config.length then decodeConfig e.Config else some []) with
  | none => rw [hcfg] at h; cases h
  | some cfg =>
    rw [hcfg] at h
    injection h with h2
    subst h2
    rfl

/-- C9: `UpdateClusterConnectionStatus(id, msg)` sets only the diagnostic
column of the row with the given id: rows with other ids are untouched, the
matching row changes only `ErrorInConnecting`, and a following `FindById(id)`
observes the new diagnostic with every other field exactly as before. -/
theorem connection_status_frame (s : Store) (clusterId : Int) (msg : String)
    (c : Cluster)
    (hex : ∃ e ∈ s.rows, e.ID = clusterId ∧ e.Active = some true)
    (h : findById s clusterId = .ok c) :
    (∀ e ∈ s.rows, e.ID ≠ clusterId →
        e ∈ (updateClusterConnectionStatus s clusterId msg).rows) ∧
    (∀ e ∈ s.rows, e.ID = clusterId →
        { e with ErrorInConnecting := msg }
          ∈ (updateClusterConnectionStatus s clusterId msg).rows) ∧
    findById (updateClusterConnectionStatus s clusterId msg) clusterId
      = .ok { c with ErrorInConnecting := msg } := by
  refine ⟨?_, ?_, ?_⟩
  · intro e he hne
    simp only [updateClusterConnectionStatus]
    exact List.mem_map.mpr ⟨e, he, by rw [if_neg hne]⟩
  · intro e he heq
    simp only [updateClusterConnectionStatus]
    exact List.mem_map.mpr ⟨e, he, by rw [if_pos heq]⟩
  · have hpf : ∀ e ∈ s.rows,
        ((fun e => e.ID == clusterId && activeRow e) ∘
          (fun e => if e.ID = clusterId then { e with ErrorInConnecting := msg } else e)) e
        = (fun e => e.ID == clusterId && activeRow e) e := by
      intro e _
      by_cases hc : e.ID = clusterId
      · simp [Function.comp, hc, activeRow]
      · simp [Function.comp, hc]
    simp only [findById, updateClusterConnectionStatus] at h ⊢
    rw [List.filter_map, List.filter_congr hpf]
    cases hfil : s.rows.filter (fun e => e.ID == clusterId && activeRow e) with
    | nil =>
      exfalso
      obtain ⟨e0, he0, hid0, hact0⟩ := hex
      have hmem : e0 ∈ s.rows.filter (fun e => e.ID == clusterId && activeRow e) :=
        List.mem_filter.mpr ⟨he0, by simp [hid0, activeRow, hact0]⟩
      rw [hfil] at hmem
      simp at hmem
    | cons e0 t =>
      rw [hfil] at h
      have hmem : e0 ∈ s.rows.filter (fun e => e.ID == clusterId && activeRow e) := by
        rw [hfil]; exact List.mem_cons_self _ _
      obtain ⟨_, hpred⟩ := List.mem_filter.mp hmem
      simp only [Bool.and_eq_true] at hpred
      have hid0 : e0.ID = clusterId := by simpa using hpred.1
      cases hcm : convertToModel e0 with
      | error m =>
        rw [List.headD_cons, hcm] at h
        cases h
      | ok c2 =>
        rw [List.headD_cons, hcm] at h
        have hc2 : c2 = c := Except.ok.inj h
        subst hc2
        simp only [List.map_cons, List.headD_cons]
        rw [if_pos hid0, convertToModel_set_err e0 msg hcm]

theorem connection_status_frame_witness :
    findById (updateClusterConnectionStatus ⟨[rowGood]⟩ 1 "dial timeout") 1
      = .ok { modelGood with ErrorInConnecting := "dial timeout" } :=
  (connection_status_frame ⟨[rowGood]⟩ 1 "dial timeout" modelGood
    (by decide) rfl).2.2

/-- C2: after a successful `MarkClusterDeleted(c)` every row with c's id is
inactive, so no active read returns c — `FindAllActive` and `FindByIds`
exclude its id, `FindById(c.Id)` returns the zero cluster, and
`FindOneActive` never yields a cluster with its id; moreover every batch read,
on any store, returns only decodings of rows whose `Active` flag is `true`,
and every point read returns the zero cluster or such a decoding. -/
theorem soft_delete_visibility (c : Cluster) (s s' : Store)
    (hid : c.Id ≠ 0)
    (h : markClusterDeleted c s = .ok s') :
    (∀ e ∈ s'.rows, e.ID = c.Id → e.Active = some false) ∧
    (∀ x ∈ findAllActive s', x.Id ≠ c.Id) ∧
    (∀ ids : List Int, ∀ x ∈ findByIds s' ids, x.Id ≠ c.Id) ∧
    (findById s' c.Id = .ok emptyCluster) ∧
    (∀ (clusterName : String) (x : Cluster),
        findOneActive s' clusterName = .ok x → x.Id ≠ c.Id) ∧
    (∀ (t : Store) (x : Cluster), x ∈ findAllActive t →
        ∃ e ∈ t.rows, e.Active = some true ∧ convertToModel e = .ok x) ∧
    (∀ (t : Store) (ids : List Int) (x : Cluster), x ∈ findByIds t ids →
        ∃ e ∈ t.rows, e.Active = some true ∧ convertToModel e = .ok x) ∧
    (∀ (t : Store) (clusterName : String) (x : Cluster),
        findOneActive t clusterName = .ok x → x = emptyCluster ∨
          ∃ e ∈ t.rows, e.Active = some true ∧ convertToModel e = .ok x) ∧
    (∀ (t : Store) (i : Int) (x : Cluster), findById t i = .ok x →
        x = emptyCluster ∨
          ∃ e ∈ t.rows, e.Active = some true ∧ convertToModel e = .ok x) := by
  have hz : ¬((convertToEntity { c with Active := false }).ID = 0) := hid
  simp only [markClusterDeleted, update] at h
  rw [if_neg hz] at h
  injection h with h2
  have hact : ∀ e ∈ s'.rows, e.ID = c.Id → e.Active = some false := by
    intro e he hEid
    rw [← h2] at he
    obtain ⟨oldE, _, hfe⟩ := List.mem_map.mp he
    by_cases hc : oldE.ID = (convertToEntity { c with Active := false }).ID
    · rw [if_pos hc] at hfe
      rw [← hfe]
      rfl
    · rw [if_neg hc] at hfe
      exfalso
      exact hc (by rw [hfe]; exact hEid)
  refine ⟨hact, ?_, ?_, ?_, ?_, ?_, ?_, ?_, ?_⟩
  · intro x hx
    obtain ⟨e, he, hea, hem⟩ := mem_findAllActive hx
    intro hxc
    have hxe : x.Id = e.ID := (convertToModel_ok_fields hem).1
    have : e.Active = some false := hact e he (by rw [← hxe]; exact hxc)
    rw [hea] at this
    cases this
  · intro ids x hx
    obtain ⟨e, he, _, hea, hem⟩ := mem_findByIds hx
    intro hxc
    have hxe : x.Id = e.ID := (convertToModel_ok_fields hem).1
    have : e.Active = some false := hact e he (by rw [← hxe]; exact hxc)
    rw [hea] at this
    cases this
  · apply findById_not_found
    intro e he
    intro ⟨hEid, hEact⟩
    have : e.Active = some false := hact e he hEid
    rw [hEact] at this
    cases this
  · intro clusterName x hx
    rcases findOneActive_ok_cases hx with hempty | ⟨e, he, _, hea, hem⟩
    · rw [hempty]
      exact fun hcon => hid (by simpa [emptyCluster] using hcon.symm)
    · intro hxc
      have hxe : x.Id = e.ID := (convertToModel_ok_fields hem).1
      have : e.Active = some false := hact e he (by rw [← hxe]; exact hxc)
      rw [hea] at this
      cases this
  · intro t x hx
    exact mem_findAllActive hx
  · intro t ids x hx
    obtain ⟨e, he, _, hea, hem⟩ := mem_findByIds hx
    exact ⟨e, he, hea, hem⟩
  · intro t clusterName x hx
    rcases findOneActive_ok_cases hx with hempty | ⟨e, he, _, hea, hem⟩
    · exact Or.inl hempty
    · exact Or.inr ⟨e, he, hea, hem⟩
  · intro t i x hx
    rcases findById_ok_cases hx with hempty | ⟨e, he, _, hea, hem⟩
    · exact Or.inl hempty
    · exact Or.inr ⟨e, he, hea, hem⟩

theorem soft_delete_visibility_witness :
    findById storeAfterDelete clusterDel.Id = .ok emptyCluster :=
  (soft_delete_visibility clusterDel ⟨[rowGood]⟩ storeAfterDelete
    (by decide) rfl).2.2.2.1

/-- C10: `FindOne` and `FindAll` are definitionally the active variants: for
every store state and input they return exactly what `FindOneActive` and
`FindAllActive` return, so no all-inclusive read variant exists. -/
theorem find_delegates_to_active :
    (∀ (s : Store) (clusterName : String),
        findOne s clusterName = findOneActive s clusterName) ∧
    (∀ s : Store, findAll s = findAllActive s) :=
  ⟨fun _ _ => rfl, fun _ => rfl⟩

end ClusterRepo
